import Mathlib

set_option maxRecDepth 8000

/-!
Verification development for the ikaruslab quadrotor firmware core.

The definitions below are a shallow embedding of the C++ sources under
`cubeide-project/firmware/`: machine integers become `Nat` with explicit
`% 2 ^ w` where wrap-around matters, `float` values become `ℚ`
(all arithmetic the firmware performs on them here is exact), and
stateful code becomes explicit state passing.
-/

/- ============================================================
   DShot encoder  (utils/dshot.cpp)
   ============================================================ -/

/-- Timer period constant from `dshot.cpp`. -/
def PERIOD : Nat := 275

/-- Duty percentage for a `1` bit, from `dshot.cpp`. -/
def DSHOT_BIT_1_DUTY : Nat := 80

/-- Duty percentage for a `0` bit, from `dshot.cpp`. -/
def DSHOT_BIT_0_DUTY : Nat := 40

/-- The 4-bit checksum loop of `prepare_dshot_buffer`: XOR of the three
4-bit nibbles of the 12-bit payload, masked to 4 bits (`csum &= 0xF`). -/
def dshotChecksum (frame12 : Nat) : Nat :=
  (((frame12 % 16).xor (frame12 / 16 % 16)).xor (frame12 / 256 % 16)) % 16

/-- The 16-bit DShot frame composed in `prepare_dshot_buffer`:
`value` is first masked to 11 bits (`value &= 0x7FF`), shifted left one
bit with telemetry bit 0, then the 4-bit checksum is appended. -/
def dshot_frame (value : Nat) : Nat :=
  value % 2048 * 2 * 16 + dshotChecksum (value % 2048 * 2)

/-- Shallow embedding of `prepare_dshot_buffer` (dshot.cpp): expands the
16 frame bits, most significant first, into PWM compare values
`(PERIOD * duty) / 100` with integer truncation, and appends the
zero-duty reset slot (`dshot_pwm_buffer[16] = 0`). -/
def prepare_dshot_buffer (value : Nat) : List Nat :=
  ((List.range 16).map fun i =>
    if dshot_frame value / 2 ^ (15 - i) % 2 = 1 then PERIOD * DSHOT_BIT_1_DUTY / 100
    else PERIOD * DSHOT_BIT_0_DUTY / 100) ++ [0]

/-- Written from the spec's words (§4.3) for comparison with the source:
an 11-bit value gives a 12-bit payload (value shifted left one bit, low
bit 0), a checksum that is the XOR of the three nibbles, a 16-bit frame,
and 16 duty slots (high duty for 1, low duty for 0, MSB first,
`(period * duty_percent) / 100` truncated) plus a trailing reset slot. -/
def dshotSpecFrame (v : Nat) : Nat :=
  v * 2 * 16 +
    (((v * 2 % 16).xor (v * 2 / 16 % 16)).xor (v * 2 / 256 % 16)) % 16

def dshotSpecBuffer (v : Nat) : List Nat :=
  ((List.range 16).map fun i =>
    if dshotSpecFrame v / 2 ^ (15 - i) % 2 = 1 then PERIOD * DSHOT_BIT_1_DUTY / 100
    else PERIOD * DSHOT_BIT_0_DUTY / 100) ++ [0]

/-- Frame validation per the spec: decode the 12 payload bits of a 16-bit
frame, rerun the XOR-of-nibbles checksum on them, and compare against the
embedded 4 checksum bits. -/
def checkDshotFrame (f : Nat) : Bool :=
  dshotChecksum (f / 16) = f % 16

/- ============================================================
   Motor output layer  (motors/MotorController.cpp, motors/Motor.cpp)
   ============================================================ -/

/-- Conversion of a `float` to `uint16_t` (C truncation toward zero).
The firmware only performs this on values that are nonnegative after
clamping; a negative operand would be undefined behavior in C, so the
theorems below restrict themselves to nonnegative inputs. -/
def floatToU16 (q : ℚ) : Nat := ⌊q⌋.toNat

/-- Conversion of a `float` to `uint32_t` (used at the call sites of
`setThrust1..4`, whose parameter type is `uint32_t`); the stored member
field is `uint16_t`, so the setter itself truncates again mod 2^16. -/
def floatToU32 (q : ℚ) : Nat := ⌊q⌋.toNat % 4294967296

/-- The four stored per-motor throttle values of `IKARUS_MotorController`
(`thrust1..thrust4`, each `uint16_t`). -/
structure ThrustCommand where
  thrust1 : Nat
  thrust2 : Nat
  thrust3 : Nat
  thrust4 : Nat
deriving DecidableEq, Repr

/-- The all-zero thrust command (initial state and disarm target). -/
def tc0 : ThrustCommand := ⟨0, 0, 0, 0⟩

/-- The per-input clamp of `IKARUS_MotorController::setThrust`:
`if (t > 300) t = 300;` — an upper bound only. -/
def clampThrustInput (t : ℚ) : ℚ := if t > 300 then 300 else t

/-- Shallow embedding of `IKARUS_MotorController::setThrust(t1,t2,t3,t4)`:
clamp each float input above at 300, then store all four into the
`uint16_t` fields under the semaphore. -/
def setThrust (t1 t2 t3 t4 : ℚ) (_tc : ThrustCommand) : ThrustCommand :=
  { thrust1 := floatToU16 (clampThrustInput t1)
    thrust2 := floatToU16 (clampThrustInput t2)
    thrust3 := floatToU16 (clampThrustInput t3)
    thrust4 := floatToU16 (clampThrustInput t4) }

/-- Shallow embedding of `IKARUS_MotorController::setThrust1(uint32_t)`:
stores the value into the `uint16_t` field with no clamp at all. -/
def setThrust1 (thrust : Nat) (tc : ThrustCommand) : ThrustCommand :=
  { tc with thrust1 := thrust % 65536 }

/-- Shallow embedding of `IKARUS_MotorController::setThrust2(uint32_t)`. -/
def setThrust2 (thrust : Nat) (tc : ThrustCommand) : ThrustCommand :=
  { tc with thrust2 := thrust % 65536 }

/-- Shallow embedding of `IKARUS_MotorController::setThrust3(uint32_t)`. -/
def setThrust3 (thrust : Nat) (tc : ThrustCommand) : ThrustCommand :=
  { tc with thrust3 := thrust % 65536 }

/-- Shallow embedding of `IKARUS_MotorController::setThrust4(uint32_t)`. -/
def setThrust4 (thrust : Nat) (tc : ThrustCommand) : ThrustCommand :=
  { tc with thrust4 := thrust % 65536 }

/- ============================================================
   Firmware supervisor  (firmware.cpp, IKARUS_Firmware::task)
   ============================================================ -/

/-- The firmware state enum `ikarus_firmware_state_t` (firmware_defs.h). -/
inductive ikarus_firmware_state_t
  | error
  | unarmed
  | running
deriving DecidableEq, Repr

/-- Flattened state of the supervisor loop `IKARUS_Firmware::task`:
the firmware state, the number of completed confirmations of the
UNARMED arming window (loop index `i` of the 160-iteration `for`), and
the shared `ThrustCommand` of the motor controller. -/
structure SupervisorState where
  fw : ikarus_firmware_state_t
  armCount : Nat
  thrust : ThrustCommand
deriving DecidableEq, Repr

/-- One 25 ms period of `IKARUS_Firmware::task`, given the value of
`controller.getArmedStatus()` read during that period.

UNARMED: a period either discards a false reading (window aborts, or
never starts), or counts one confirmation; the 160th consecutive true
confirmation sets the state to RUNNING.  Every UNARMED period leaves the
`ThrustCommand` untouched (`motorController.update()` only re-transmits).

RUNNING with armed false: `setThrust(0,0,0,0)` and back to UNARMED within
the same period.  RUNNING with armed true: `controlManager.update()` and
`motorController.update()` run, neither of which writes the shared
`ThrustCommand` (the `setThrust` call at the end of
`IKARUS_ControlManager::update` is commented out in the source).

ERROR: an idle wait loop, nothing changes. -/
def supervisorStep (s : SupervisorState) (armed : Bool) : SupervisorState :=
  match s.fw with
  | .unarmed =>
    if armed then
      if s.armCount + 1 ≥ 160 then { s with fw := .running, armCount := 0 }
      else { s with armCount := s.armCount + 1 }
    else
      { s with armCount := 0 }
  | .running =>
    if armed then s
    else { fw := .unarmed, armCount := 0, thrust := setThrust 0 0 0 0 s.thrust }
  | .error => s

/-- Runs the supervisor over a list of per-period armed readings. -/
def supervisorRun (s : SupervisorState) (inputs : List Bool) : SupervisorState :=
  inputs.foldl supervisorStep s

/-- The initial supervisor state: UNARMED, no confirmations, zero thrust. -/
def supervisorInit : SupervisorState := ⟨.unarmed, 0, tc0⟩

/- ============================================================
   Motor hardware start paths  (motors/Motor.cpp, MotorController.cpp)
   ============================================================ -/

/-- Shallow embedding of `Motor::start()` (Motor.cpp): the body is a stub
(`//ToDO`) that always returns true — no hardware PWM/DMA start happens on
this path. -/
def Motor_start : Bool := true

/-- Observable outcome of one `Motor::updatePWM` call. -/
structure MotorUpdateOutcome where
  buffer : List Nat
  errorHandlerCalled : Bool
  fwAfter : ikarus_firmware_state_t
deriving DecidableEq, Repr

/-- Shallow embedding of `Motor::updatePWM` (Motor.cpp): prepares the
DShot buffer and calls the external `HAL_TIM_PWM_Start_DMA`; a nonzero
(failure) return invokes the global `Error_Handler()`.  The body never
writes `ikarus_firmware.firmware_state`, so the firmware state is passed
through unchanged; `halStartOk` is the external HAL collaborator's
success/failure result (§6 of the spec). -/
def Motor_updatePWM (signal : Nat) (halStartOk : Bool)
    (fw : ikarus_firmware_state_t) : MotorUpdateOutcome :=
  { buffer := prepare_dshot_buffer signal
    errorHandlerCalled := !halStartOk
    fwAfter := fw }

/-- Shallow embedding of the startup loop of `IKARUS_MotorController::init`
(MotorController.cpp lines 31-35): for each motor, if `motors[i]->start()`
returns false, `ikarus_firmware.firmware_state` is set to ERROR. -/
def MotorController_init_state (startResults : List Bool)
    (fw : ikarus_firmware_state_t) : ikarus_firmware_state_t :=
  startResults.foldl (fun st ok => if ok then st else .error) fw

/- ============================================================
   Control law  (Control/Control.cpp, IKARUS_ControlManager::update)
   ============================================================ -/

/-- Setpoint snapshot `ikarus_control_external_input_t` (Controller.hpp). -/
structure ikarus_control_external_input_t where
  roll : ℚ
  pitch : ℚ
  yaw : ℚ
deriving DecidableEq, Repr

/-- Attitude estimate `ikarus_estimation_state_t` (estimation.hpp). -/
structure ikarus_estimation_state_t where
  roll : ℚ
  pitch : ℚ
  yaw : ℚ
  roll_dot : ℚ
  pitch_dot : ℚ
  yaw_dot : ℚ
deriving DecidableEq, Repr

/-- Control parameters `ikarus_control_params_t` (Control.hpp). -/
structure ikarus_control_params_t where
  Kp_roll : ℚ
  Kd_roll : ℚ
  Kp_pitch : ℚ
  Kd_pitch : ℚ
  Kp_yaw : ℚ
  Ki_yaw : ℚ
  Kd_yaw : ℚ
  yaw_integrator : ℚ
  yaw_i_limit : ℚ
  mix_roll : ℚ
  mix_pitch : ℚ
  mix_yaw : ℚ
  thrust_min : Nat
  thrust_max : Nat
  base_thrust : ℚ
  gyro_lpf_cutoff : ℚ
  dterm_lpf_cutoff : ℚ
deriving DecidableEq, Repr

/-- Control outputs `ikarus_control_outputs_t` (Control.hpp), four
`uint16_t` thrust values. -/
structure ikarus_control_outputs_t where
  thrust1 : Nat
  thrust2 : Nat
  thrust3 : Nat
  thrust4 : Nat
deriving DecidableEq, Repr

/-- The yaw-integrator update of `IKARUS_ControlManager::update`
(Control.cpp lines 64-66): accumulate `Ki_yaw * e_yaw`, then run the two
sequential clamp `if`s. -/
def yawIntegratorStep (Ki limit I e : ℚ) : ℚ :=
  let I1 := I + Ki * e
  let I2 := if I1 > limit then limit else I1
  if I2 < -limit then -limit else I2

/-- Symmetric clamp as the spec words it ("clamped symmetrically to
±yaw_i_limit"): a single if/else-if chain. -/
def clampSym (x limit : ℚ) : ℚ :=
  if x > limit then limit else if x < -limit then -limit else x

/-- The base thrust of `IKARUS_ControlManager::update`:
`thrust_min + base_thrust * (thrust_max - thrust_min)`. -/
def controlBase (P : ikarus_control_params_t) : ℚ :=
  (P.thrust_min : ℚ) + P.base_thrust * ((P.thrust_max : ℚ) - (P.thrust_min : ℚ))

/-- Roll thrust delta `R = mix_roll * u_roll` with
`u_roll = Kp_roll*e_roll - Kd_roll*roll_dot`. -/
def controlDeltaR (inputs : ikarus_control_external_input_t)
    (state : ikarus_estimation_state_t) (P : ikarus_control_params_t) : ℚ :=
  P.mix_roll * (P.Kp_roll * (inputs.roll - state.roll) - P.Kd_roll * state.roll_dot)

/-- Pitch thrust delta `T = mix_pitch * u_pitch` with
`u_pitch = Kp_pitch*e_pitch - Kd_pitch*pitch_dot`. -/
def controlDeltaT (inputs : ikarus_control_external_input_t)
    (state : ikarus_estimation_state_t) (P : ikarus_control_params_t) : ℚ :=
  P.mix_pitch * (P.Kp_pitch * (inputs.pitch - state.pitch) - P.Kd_pitch * state.pitch_dot)

/-- Yaw thrust delta `Y = mix_yaw * u_yaw` with
`u_yaw = Kp_yaw*e_yaw + yaw_integrator' + d_yaw`, where the integrator has
already been advanced by this update and `d_yaw = -Kd_yaw * yaw_dot`. -/
def controlDeltaY (inputs : ikarus_control_external_input_t)
    (state : ikarus_estimation_state_t) (P : ikarus_control_params_t) : ℚ :=
  P.mix_yaw * (P.Kp_yaw * (inputs.yaw - state.yaw) +
    yawIntegratorStep P.Ki_yaw P.yaw_i_limit P.yaw_integrator (inputs.yaw - state.yaw) +
    (-P.Kd_yaw * state.yaw_dot))

/-- The `clip` lambda of `IKARUS_ControlManager::update`: clamp to the
legal DShot range `[thrust_min, thrust_max]` via two early returns. -/
def clip (tmin tmax : Nat) (v : ℚ) : ℚ :=
  if v < (tmin : ℚ) then (tmin : ℚ) else if v > (tmax : ℚ) then (tmax : ℚ) else v

/-- Shallow embedding of `IKARUS_ControlManager::update` (Control.cpp):
returns the parameter struct with the advanced yaw integrator together
with the published `_output` values (quad-X mixer, clipped, then cast to
`uint16_t`).  The trailing `setThrust` call to the motor controller is
commented out in the source, so the ThrustCommand is not part of the
result. -/
def controlUpdate (inputs : ikarus_control_external_input_t)
    (state : ikarus_estimation_state_t) (P : ikarus_control_params_t) :
    ikarus_control_params_t × ikarus_control_outputs_t :=
  ({ P with yaw_integrator :=
      yawIntegratorStep P.Ki_yaw P.yaw_i_limit P.yaw_integrator (inputs.yaw - state.yaw) },
   { thrust1 := floatToU16 (clip P.thrust_min P.thrust_max
       (controlBase P + controlDeltaR inputs state P + controlDeltaT inputs state P -
        controlDeltaY inputs state P))
     thrust2 := floatToU16 (clip P.thrust_min P.thrust_max
       (controlBase P - controlDeltaR inputs state P + controlDeltaT inputs state P +
        controlDeltaY inputs state P))
     thrust3 := floatToU16 (clip P.thrust_min P.thrust_max
       (controlBase P - controlDeltaR inputs state P - controlDeltaT inputs state P -
        controlDeltaY inputs state P))
     thrust4 := floatToU16 (clip P.thrust_min P.thrust_max
       (controlBase P + controlDeltaR inputs state P - controlDeltaT inputs state P +
        controlDeltaY inputs state P)) })

/-- Concrete setpoint used in witnesses and counterexamples: all zero. -/
def cexInputs : ikarus_control_external_input_t := ⟨0, 0, 0⟩

/-- Concrete attitude estimate used in witnesses and counterexamples:
zero angles, zero pitch/yaw rates, but a nonzero roll rate of 1. -/
def cexState : ikarus_estimation_state_t := ⟨0, 0, 0, 1, 0, 0⟩

/-- Concrete parameter set used in witnesses and counterexamples:
Kd_roll = 1 and unit mixer gains, zero remaining gains and integrator,
thrust range [0, 2000], base throttle fraction 1/2. -/
def cexParams : ikarus_control_params_t :=
  ⟨0, 1, 0, 0, 0, 0, 0, 0, 0, 1, 1, 1, 0, 2000, 1/2, 0, 0⟩

/- ============================================================
   Link receiver  (uartCommunication/uart_task.cpp, MessageTask)
   ============================================================ -/

/-- Parser state of `MessageTask` (uart_task.cpp): the `in_message` flag,
the accumulation buffer `msgBuf[0..index-1]` (the fill index is the
buffer's length), and `expected_length`. -/
structure ReceiveParserState where
  in_message : Bool
  buf : List Nat
  expected_length : Nat
deriving DecidableEq, Repr

/-- The idle parser state (also the state after every reset). -/
def parserIdle : ReceiveParserState := ⟨false, [], 0⟩

/-- One byte of the `MessageTask` loop body.  Returns the next state and
the frame handed to `processBinaryMessage`, if any.  While idle, only the
start byte 0xAA begins a message; in a message the byte is appended, at
index 3 the declared payload length is validated (> 100 resets to idle)
and the target size is fixed to the constant 3 + 100 + 1 = 104; when the
fill index reaches the target the first `expected_length` bytes of the
buffer are dispatched and the parser resets; `index >= sizeof(msgBuf)`
(104) with no dispatch also resets. -/
def parserStep : ReceiveParserState → Nat → ReceiveParserState × Option (List Nat)
  | ⟨false, buf0, exp0⟩, b =>
    if b = 0xAA then (⟨true, [b], 0⟩, none)
    else (⟨false, buf0, exp0⟩, none)
  | ⟨true, buf0, exp0⟩, b =>
    if (buf0 ++ [b]).length = 3 ∧ (buf0 ++ [b]).getD 2 0 > 100 then (parserIdle, none)
    else
      if 0 < (if (buf0 ++ [b]).length = 3 then 104 else exp0) ∧
          (if (buf0 ++ [b]).length = 3 then 104 else exp0) ≤ (buf0 ++ [b]).length then
        (parserIdle, some ((buf0 ++ [b]).take
          (if (buf0 ++ [b]).length = 3 then 104 else exp0)))
      else if 104 ≤ (buf0 ++ [b]).length then (parserIdle, none)
      else (⟨true, buf0 ++ [b], if (buf0 ++ [b]).length = 3 then 104 else exp0⟩, none)

/-- Runs the parser over a byte list, collecting all dispatched frames. -/
def parserRun (st : ReceiveParserState) (bytes : List Nat) :
    ReceiveParserState × List (List Nat) :=
  bytes.foldl (fun acc b =>
    ((parserStep acc.1 b).1, acc.2 ++ ((parserStep acc.1 b).2).toList))
    (st, [])

/-- The protocol checksum `ikarus_calc_crc` (ikarus_protocoll.h): 8-bit
truncation of the `uint16_t` running sum of the first `len` bytes. -/
def ikarus_calc_crc (data : List Nat) (len : Nat) : Nat :=
  ((data.take len).foldl (fun s x => (s + x) % 65536) 0) % 256

/-- A concrete well-formed 104-byte frame: an ARM command (type 0,
payload length 1, payload byte 1, zero padding, correct checksum 0xAC at
the fixed trailing offset 103). -/
def goodFrame : List Nat := [0xAA, 0, 1, 1] ++ List.replicate 99 0 ++ [0xAC]

/- ============================================================
   Command dispatcher / binary decoder
   (uartCommunication/ikarus_communication.cpp, processBinaryMessage)
   ============================================================ -/

/-- The shared state mutated by the message handlers: ArmState
(`controller.armed`), the ThrustCommand of the motor controller, the
per-axis setpoints (`controller._inputs`), the stored special command,
and a counter of magnetometer-calibration invocations. -/
structure FirmwareSharedState where
  armed : Bool
  thrust : ThrustCommand
  pitch : ℚ
  roll : ℚ
  yaw : ℚ
  special_command : Nat
  magCalibrations : Nat
deriving DecidableEq, Repr

/-- The `switch (msg->msg_type)` body of `processBinaryMessage`, reached
only after the start/length/CRC checks passed.  `decodeF` abstracts the
IEEE-754 bit decoding of 4 payload bytes into a float (a `memcpy` in the
source); `magCalType` and `specialType` are the numeric values of the
constants `IKARUS_MAG_CALIBRATE` and `IKARUS_SPECIAL_COMMAND`, whose
definitions are not part of the firmware sources (they are modelled from
the spec as two further message type codes).  Returns the new shared
state and the reply sent, if any. -/
def dispatchMessage (decodeF : List Nat → ℚ) (magCalType specialType : Nat)
    (msg_type payload_length : Nat) (payload : List Nat)
    (st : FirmwareSharedState) : FirmwareSharedState × Option String :=
  if msg_type = 0 then
    if payload_length ≠ 1 then (st, some "ERR: invalid arming payload\n")
    else if payload.getD 0 0 = 1 then
      ({ st with armed := true }, some "OK: armed\n")
    else if payload.getD 0 0 = 0 then
      ({ st with thrust := setThrust 0 0 0 0 st.thrust, armed := false },
       some "OK: disarmed\n")
    else (st, some "ERR: invalid arming value\n")
  else if msg_type = 1 then
    if payload_length ≠ 16 then (st, some "ERR: invalid thrust payload\n")
    else
      ({ st with thrust := (setThrust (decodeF (payload.take 4))
          (decodeF ((payload.drop 4).take 4)) (decodeF ((payload.drop 8).take 4))
          (decodeF ((payload.drop 12).take 4)) st.thrust) },
       some "OK: thrust\n")
  else if msg_type = 2 then
    if payload_length ≠ 4 then (st, some "ERR: invalid float payload\n")
    else ({ st with pitch := decodeF (payload.take 4) }, some "OK: pitch\n")
  else if msg_type = 3 then
    if payload_length ≠ 4 then (st, some "ERR: invalid float payload\n")
    else ({ st with roll := decodeF (payload.take 4) }, some "OK: roll\n")
  else if msg_type = 4 then
    if payload_length ≠ 4 then (st, some "ERR: invalid float payload\n")
    else ({ st with yaw := decodeF (payload.take 4) }, some "OK: yaw\n")
  else if msg_type = 5 then
    if payload_length ≠ 4 then (st, some "ERR: invalid motor payload\n")
    else ({ st with thrust := setThrust1 (floatToU32 (decodeF (payload.take 4))) st.thrust },
      some "OK: motor1\n")
  else if msg_type = 6 then
    if payload_length ≠ 4 then (st, some "ERR: invalid motor payload\n")
    else ({ st with thrust := setThrust2 (floatToU32 (decodeF (payload.take 4))) st.thrust },
      some "OK: motor2\n")
  else if msg_type = 7 then
    if payload_length ≠ 4 then (st, some "ERR: invalid motor payload\n")
    else ({ st with thrust := setThrust3 (floatToU32 (decodeF (payload.take 4))) st.thrust },
      some "OK: motor3\n")
  else if msg_type = 8 then
    if payload_length ≠ 4 then (st, some "ERR: invalid motor payload\n")
    else ({ st with thrust := setThrust4 (floatToU32 (decodeF (payload.take 4))) st.thrust },
      some "OK: motor4\n")
  else if msg_type = magCalType then
    ({ st with magCalibrations := st.magCalibrations + 1 }, none)
  else if msg_type = specialType then
    ({ st with special_command := payload.getD 0 0 + 256 * payload.getD 1 0 }, none)
  else (st, some "ERR: unknown type\n")

/-- Shallow embedding of
`IKARUS_CommunicationManager::processBinaryMessage` (the structural
checks before the dispatch switch): too-short block, start byte, declared
payload length, and checksum — the checksum is computed over the 3 header
bytes plus `payload_length` payload bytes and compared with the `crc`
struct field at the fixed offset 103. -/
def processBinaryMessage (decodeF : List Nat → ℚ) (magCalType specialType : Nat)
    (data : List Nat) (st : FirmwareSharedState) :
    FirmwareSharedState × Option String :=
  if data.length < 104 then (st, some "ERR: msg too short\n")
  else if data.getD 0 0 ≠ 0xAA then (st, some "ERR: invalid start\n")
  else if data.getD 2 0 > 100 then (st, some "ERR: invalid length\n")
  else if ikarus_calc_crc data (3 + data.getD 2 0) ≠ data.getD 103 0 then
    (st, some "ERR: CRC mismatch\n")
  else
    dispatchMessage decodeF magCalType specialType (data.getD 1 0) (data.getD 2 0)
      (data.drop 3) st

/-- A concrete corrupted frame: the well-formed frame with its trailing
checksum byte changed from 0xAC to 0xAD. -/
def badFrame : List Nat := [0xAA, 0, 1, 1] ++ List.replicate 99 0 ++ [0xAD]

/-- A concrete initial shared state: disarmed, zero thrust, zero
setpoints. -/
def st0 : FirmwareSharedState := ⟨false, tc0, 0, 0, 0, 0, 0⟩

/- ============================================================
   Theorems
   ============================================================ -/

theorem dshotChecksum_lt_16 (f : Nat) : dshotChecksum f < 16 :=
  Nat.mod_lt _ (by decide)

theorem dshot_frame_div_16 (v : Nat) :
    dshot_frame v / 16 = v % 2048 * 2 := by
  unfold dshot_frame
  have h := dshotChecksum_lt_16 (v % 2048 * 2)
  omega

theorem dshot_frame_mod_16 (v : Nat) :
    dshot_frame v % 16 = dshotChecksum (v % 2048 * 2) := by
  unfold dshot_frame
  have h := dshotChecksum_lt_16 (v % 2048 * 2)
  omega

theorem dshot_frame_eq_spec (v : Nat) (h : v < 2048) :
    dshot_frame v = dshotSpecFrame v := by
  unfold dshot_frame dshotSpecFrame dshotChecksum
  rw [Nat.mod_eq_of_lt h]

/-- C5: for every 11-bit throttle value the DShot encoder produces exactly
the buffer described by the spec (12-bit payload = value shifted left one
bit with telemetry 0, checksum = XOR of the three nibbles, 16 slots of
`(PERIOD * duty) / 100` with integer truncation, MSB first, plus one
trailing zero reset slot, 17 slots in all), and the embedded checksum
validates when the XOR-of-nibbles algorithm is rerun on the decoded
payload bits. -/
theorem dshot_encoder_matches_spec (v : Nat) (h : v < 2048) :
    prepare_dshot_buffer v = dshotSpecBuffer v ∧
    (prepare_dshot_buffer v).length = 17 ∧
    (prepare_dshot_buffer v).getLast? = some 0 ∧
    checkDshotFrame (dshot_frame v) = true := by
  refine ⟨?_, ?_, ?_, ?_⟩
  · unfold prepare_dshot_buffer dshotSpecBuffer
    rw [dshot_frame_eq_spec v h]
  · simp [prepare_dshot_buffer]
  · simp [prepare_dshot_buffer]
  · unfold checkDshotFrame
    rw [dshot_frame_div_16, dshot_frame_mod_16]
    simp

/-- Witness for `dshot_encoder_matches_spec` at the concrete input 1234. -/
theorem dshot_encoder_matches_spec_witness :
    prepare_dshot_buffer 1234 = dshotSpecBuffer 1234 ∧
    (prepare_dshot_buffer 1234).length = 17 ∧
    (prepare_dshot_buffer 1234).getLast? = some 0 ∧
    checkDshotFrame (dshot_frame 1234) = true :=
  dshot_encoder_matches_spec 1234 (by decide)

/-- C10: the DShot encoder reduces its input modulo 2048 before encoding:
for every 16-bit input the buffer equals the buffer of the input mod 2048,
so over-range values wrap around (2048 encodes like 0) rather than
saturating at 2047. -/
theorem dshot_input_wraps_mod_2048 :
    (∀ v : Nat, v < 65536 →
      prepare_dshot_buffer v = prepare_dshot_buffer (v % 2048)) ∧
    prepare_dshot_buffer 2048 = prepare_dshot_buffer 0 ∧
    prepare_dshot_buffer 2048 ≠ prepare_dshot_buffer 2047 := by
  refine ⟨fun v _ => ?_, by decide, by decide⟩
  unfold prepare_dshot_buffer dshot_frame
  rw [Nat.mod_mod_of_dvd v dvd_rfl]

/-- Witness for `dshot_input_wraps_mod_2048` at the concrete input 3000. -/
theorem dshot_input_wraps_mod_2048_witness :
    prepare_dshot_buffer 3000 = prepare_dshot_buffer (3000 % 2048) :=
  dshot_input_wraps_mod_2048.1 3000 (by decide)

theorem clampThrustInput_le_300 (t : ℚ) : clampThrustInput t ≤ 300 := by
  unfold clampThrustInput
  split
  · exact le_refl _
  · linarith [not_lt.mp (by assumption : ¬ t > 300)]

theorem floatToU16_le_of_le {q : ℚ} {b : Nat} (h : q ≤ (b : ℚ)) :
    floatToU16 q ≤ b := by
  unfold floatToU16
  have h1 : ⌊q⌋ ≤ (b : Int) := by
    have := Int.floor_le_floor h
    simpa using this
  omega

/-- C1 (counterexample): the single-motor override `setThrust1` stores its
input with no clamp: the value 400 is stored as 400, while the four-motor
`setThrust` path clamps the same input down to 300; and the disarm zeroing
stores 0.  Hence the stored values do not all stay inside one clamped
interval `[thrust_min, thrust_max]` — in particular not inside the spec's
own example bounds `[47, 2048]` (0 is stored) and not inside `[0, 300]`
(400 is stored). -/
theorem thrust_write_invariant_cex :
    (setThrust1 (floatToU32 400) tc0).thrust1 = 400 ∧
    (setThrust 400 400 400 400 tc0).thrust1 = 300 ∧
    (setThrust 0 0 0 0 tc0).thrust1 = 0 ∧
    ¬ (400 : Nat) ≤ 300 ∧ ¬ (47 : Nat) ≤ 0 := by
  refine ⟨?_, ?_, ?_, by decide, by decide⟩
  · show (⌊(400 : ℚ)⌋.toNat % 4294967296) % 65536 = 400
    norm_num
    decide
  · show ⌊clampThrustInput 400⌋.toNat = 300
    norm_num [clampThrustInput]
    decide
  · show ⌊clampThrustInput 0⌋.toNat = 0
    norm_num [clampThrustInput]

/-- C1 (amended): `setThrust` clamps each input only from above, at the
fixed bound 300, so after a `setThrust` call every stored value is at most
300 (and, being `uint16_t`, at least 0); the disarm zeroing
`setThrust(0,0,0,0)` stores exactly (0,0,0,0); the single-motor overrides
`setThrust1..4` store their argument truncated mod 2^16 with no clamp. -/
theorem setThrust_upper_clamp (t1 t2 t3 t4 : ℚ) (tc : ThrustCommand)
    (_h1 : 0 ≤ t1) (_h2 : 0 ≤ t2) (_h3 : 0 ≤ t3) (_h4 : 0 ≤ t4) :
    (setThrust t1 t2 t3 t4 tc).thrust1 ≤ 300 ∧
    (setThrust t1 t2 t3 t4 tc).thrust2 ≤ 300 ∧
    (setThrust t1 t2 t3 t4 tc).thrust3 ≤ 300 ∧
    (setThrust t1 t2 t3 t4 tc).thrust4 ≤ 300 ∧
    setThrust 0 0 0 0 tc = tc0 ∧
    (∀ v : Nat, (setThrust1 v tc).thrust1 = v % 65536) := by
  have hb : ((300 : Nat) : ℚ) = 300 := by norm_num
  refine ⟨?_, ?_, ?_, ?_, ?_, fun v => rfl⟩
  · exact floatToU16_le_of_le (by rw [hb]; exact clampThrustInput_le_300 t1)
  · exact floatToU16_le_of_le (by rw [hb]; exact clampThrustInput_le_300 t2)
  · exact floatToU16_le_of_le (by rw [hb]; exact clampThrustInput_le_300 t3)
  · exact floatToU16_le_of_le (by rw [hb]; exact clampThrustInput_le_300 t4)
  · show (⟨_, _, _, _⟩ : ThrustCommand) = tc0
    norm_num [clampThrustInput, floatToU16, tc0]

/-- Witness for `setThrust_upper_clamp` at concrete inputs (500, 20, 0, 3). -/
theorem setThrust_upper_clamp_witness :
    (setThrust 500 20 0 3 tc0).thrust1 ≤ 300 ∧
    (setThrust 500 20 0 3 tc0).thrust2 ≤ 300 ∧
    (setThrust 500 20 0 3 tc0).thrust3 ≤ 300 ∧
    (setThrust 500 20 0 3 tc0).thrust4 ≤ 300 ∧
    setThrust 0 0 0 0 tc0 = tc0 ∧
    (∀ v : Nat, (setThrust1 v tc0).thrust1 = v % 65536) :=
  setThrust_upper_clamp 500 20 0 3 tc0 (by norm_num) (by norm_num)
    (by norm_num) (by norm_num)

theorem supervisorRun_append (s : SupervisorState) (l1 l2 : List Bool) :
    supervisorRun s (l1 ++ l2) = supervisorRun (supervisorRun s l1) l2 :=
  List.foldl_append ..

theorem supervisorRun_true_window (k c : Nat) (tc : ThrustCommand)
    (h : c + k < 160) :
    supervisorRun ⟨.unarmed, c, tc⟩ (List.replicate k true) =
      ⟨.unarmed, c + k, tc⟩ := by
  induction k generalizing c with
  | zero => rfl
  | succ n ih =>
    rw [List.replicate_succ]
    show supervisorRun (supervisorStep ⟨.unarmed, c, tc⟩ true)
      (List.replicate n true) = _
    have hc : ¬ c + 1 ≥ 160 := by omega
    have hstep : supervisorStep ⟨.unarmed, c, tc⟩ true = ⟨.unarmed, c + 1, tc⟩ := by
      simp only [supervisorStep]
      rw [if_pos trivial, if_neg hc]
    rw [hstep, ih (c + 1) (by omega)]
    congr 1
    omega

theorem setThrust_zero (tc : ThrustCommand) : setThrust 0 0 0 0 tc = tc0 := by
  show (⟨_, _, _, _⟩ : ThrustCommand) = tc0
  norm_num [clampThrustInput, floatToU16, tc0]

theorem supervisorStep_unarmed_false (c : Nat) (tc : ThrustCommand) :
    supervisorStep ⟨.unarmed, c, tc⟩ false = ⟨.unarmed, 0, tc⟩ := by
  simp [supervisorStep]

theorem supervisorStep_unarmed_true (c : Nat) (tc : ThrustCommand) (hc : c + 1 < 160) :
    supervisorStep ⟨.unarmed, c, tc⟩ true = ⟨.unarmed, c + 1, tc⟩ := by
  simp only [supervisorStep]
  rw [if_pos trivial, if_neg (by omega)]

theorem supervisorRun_running_needs_window (bs : List Bool) (c : Nat)
    (tc : ThrustCommand)
    (h : (supervisorRun ⟨.unarmed, c, tc⟩ bs).fw = .running) :
    (∃ l2, bs = List.replicate (160 - c) true ++ l2) ∨
    (∃ l1 l2, bs = l1 ++ List.replicate 160 true ++ l2) := by
  induction bs generalizing c tc with
  | nil => simp [supervisorRun] at h
  | cons b rest ih =>
    have hrun : supervisorRun ⟨.unarmed, c, tc⟩ (b :: rest) =
        supervisorRun (supervisorStep ⟨.unarmed, c, tc⟩ b) rest := rfl
    cases b with
    | true =>
      by_cases hc : c + 1 ≥ 160
      · left
        rcases (by omega : 160 - c = 0 ∨ 160 - c = 1) with h0 | h1
        · exact ⟨true :: rest, by rw [h0]; rfl⟩
        · exact ⟨rest, by rw [h1]; rfl⟩
      · rw [hrun, supervisorStep_unarmed_true c tc (by omega)] at h
        rcases ih (c + 1) tc h with ⟨l2, hl⟩ | ⟨l1, l2, hl⟩
        · left
          refine ⟨l2, ?_⟩
          have h160 : 160 - c = (160 - (c + 1)) + 1 := by omega
          rw [hl, h160, List.replicate_succ]
          rfl
        · right
          exact ⟨true :: l1, l2, by rw [hl]; rfl⟩
    | false =>
      rw [hrun, supervisorStep_unarmed_false c tc] at h
      rcases ih 0 tc h with ⟨l2, hl⟩ | ⟨l1, l2, hl⟩
      · right
        exact ⟨[false], l2, by rw [hl]; rfl⟩
      · right
        exact ⟨false :: l1, l2, by rw [hl]; rfl⟩

/-- C2: the supervisor state machine satisfies the arming-window and
emergency-disarm scenarios.  From UNARMED with zero thrust, (1) during the
arming window the state stays UNARMED with thrust zero for every proper
prefix of true confirmations; (2) 160 consecutive true confirmations make
the state RUNNING with thrust still zero; (3) a false reading at any
confirmation k < 160 (in particular #80) aborts the window back to UNARMED
with zero confirmations and zero thrust; (4) from RUNNING, one single
period with a false armed reading yields state UNARMED and ThrustCommand
exactly (0,0,0,0); and (5) the state can become RUNNING only via 160
consecutive true confirmation periods: any input sequence ending in
RUNNING contains 160 consecutive true readings. -/
theorem supervisor_arming_and_disarm :
    (∀ k, k < 160 →
      supervisorRun supervisorInit (List.replicate k true) = ⟨.unarmed, k, tc0⟩) ∧
    supervisorRun supervisorInit (List.replicate 160 true) = ⟨.running, 0, tc0⟩ ∧
    (∀ k, k < 160 →
      supervisorRun supervisorInit (List.replicate k true ++ [false]) =
        ⟨.unarmed, 0, tc0⟩) ∧
    (∀ c tc, supervisorStep ⟨.running, c, tc⟩ false = ⟨.unarmed, 0, tc0⟩) ∧
    (∀ bs, (supervisorRun supervisorInit bs).fw = .running →
      ∃ l1 l2, bs = l1 ++ List.replicate 160 true ++ l2) := by
  refine ⟨?_, by decide, ?_, ?_, ?_⟩
  · intro k hk
    show supervisorRun ⟨.unarmed, 0, tc0⟩ (List.replicate k true) = _
    rw [supervisorRun_true_window k 0 tc0 (by omega)]
    congr 1
    omega
  · intro k hk
    show supervisorRun ⟨.unarmed, 0, tc0⟩ (List.replicate k true ++ [false]) = _
    rw [supervisorRun_append, supervisorRun_true_window k 0 tc0 (by omega)]
    show supervisorStep ⟨.unarmed, 0 + k, tc0⟩ false = _
    rw [supervisorStep_unarmed_false]
  · intro c tc
    show (⟨.unarmed, 0, setThrust 0 0 0 0 tc⟩ : SupervisorState) = _
    rw [setThrust_zero]
  · intro bs h
    rcases supervisorRun_running_needs_window bs 0 tc0 h with ⟨l2, hl⟩ | hr
    · exact ⟨[], l2, by simpa using hl⟩
    · exact hr

/-- Witness for `supervisor_arming_and_disarm`: the full 160-true window,
the abort at confirmation #80, and the needs-a-window direction at the
concrete input of exactly 160 true readings. -/
theorem supervisor_arming_and_disarm_witness :
    supervisorRun supervisorInit (List.replicate 80 true) = ⟨.unarmed, 80, tc0⟩ ∧
    supervisorRun supervisorInit (List.replicate 80 true ++ [false]) =
      ⟨.unarmed, 0, tc0⟩ ∧
    (∃ l1 l2, List.replicate 160 true = l1 ++ List.replicate 160 true ++ l2) :=
  ⟨supervisor_arming_and_disarm.1 80 (by decide),
   supervisor_arming_and_disarm.2.2.1 80 (by decide),
   supervisor_arming_and_disarm.2.2.2.2 (List.replicate 160 true) (by decide)⟩

/-- C8 (counterexample): a PWM/DMA start failure during a motor output
update does NOT transition FirmwareState to ERROR: `Motor::updatePWM`
invokes the global `Error_Handler()` and leaves the firmware state
unchanged (here: still RUNNING). -/
theorem pwm_failure_keeps_state_cex :
    (Motor_updatePWM 0 false .running).fwAfter = .running ∧
    (Motor_updatePWM 0 false .running).errorHandlerCalled = true ∧
    ikarus_firmware_state_t.running ≠ .error := by
  exact ⟨rfl, rfl, by decide⟩

/-- C8 (amended): on a PWM/DMA start failure during a motor output update
the code invokes `Error_Handler()` and never changes FirmwareState; the
startup loop of `MotorController::init` would set FirmwareState to ERROR
if any `Motor::start()` returned false, but `Motor::start()` is a stub
that always returns true, so the actual startup path leaves the firmware
state unchanged. -/
theorem pwm_failure_behavior (sig : Nat) (fw : ikarus_firmware_state_t) :
    (Motor_updatePWM sig false fw).errorHandlerCalled = true ∧
    (∀ ok, (Motor_updatePWM sig ok fw).fwAfter = fw) ∧
    Motor_start = true ∧
    MotorController_init_state
      [Motor_start, Motor_start, Motor_start, Motor_start] fw = fw ∧
    (∀ a b c d : Bool, (a && b && c && d) = false →
      MotorController_init_state [a, b, c, d] fw = .error) := by
  refine ⟨rfl, fun _ => rfl, rfl, rfl, ?_⟩
  intro a b c d habcd
  cases a <;> cases b <;> cases c <;> cases d <;>
    simp_all [MotorController_init_state]

/-- Witness for `pwm_failure_behavior` at signal 0, state UNARMED, and the
start-result vector (true, false, true, true). -/
theorem pwm_failure_behavior_witness :
    (Motor_updatePWM 0 false .unarmed).errorHandlerCalled = true ∧
    MotorController_init_state [true, false, true, true] .unarmed = .error :=
  ⟨(pwm_failure_behavior 0 .unarmed).1,
   (pwm_failure_behavior 0 .unarmed).2.2.2.2 true false true true (by decide)⟩

theorem clip_mem (tmin tmax : Nat) (v : ℚ) (h : tmin ≤ tmax) :
    (tmin : ℚ) ≤ clip tmin tmax v ∧ clip tmin tmax v ≤ (tmax : ℚ) := by
  have hq : (tmin : ℚ) ≤ (tmax : ℚ) := by exact_mod_cast h
  unfold clip
  split
  · exact ⟨le_refl _, hq⟩
  · split
    · exact ⟨hq, le_refl _⟩
    · constructor
      · linarith [not_lt.mp (by assumption : ¬ v < (tmin : ℚ))]
      · linarith [not_lt.mp (by assumption : ¬ v > (tmax : ℚ))]

theorem floatToU16_bounds {q : ℚ} {a b : Nat} (ha : (a : ℚ) ≤ q)
    (hb : q ≤ (b : ℚ)) : a ≤ floatToU16 q ∧ floatToU16 q ≤ b := by
  constructor
  · unfold floatToU16
    have h1 : (a : Int) ≤ ⌊q⌋ := by
      rw [Int.le_floor]
      exact_mod_cast ha
    omega
  · exact floatToU16_le_of_le hb

theorem yawIntegratorStep_eq_clampSym (Ki limit I e : ℚ) (h : 0 ≤ limit) :
    yawIntegratorStep Ki limit I e = clampSym (I + Ki * e) limit := by
  unfold yawIntegratorStep clampSym
  by_cases h1 : I + Ki * e > limit
  · simp only [if_pos h1]
    rw [if_neg (by linarith)]
  · simp only [if_neg h1]

theorem clampSym_mem (x limit : ℚ) (h : 0 ≤ limit) :
    -limit ≤ clampSym x limit ∧ clampSym x limit ≤ limit := by
  unfold clampSym
  split
  · constructor <;> linarith
  · split
    · constructor <;> linarith
    · constructor <;> linarith [not_lt.mp (by assumption : ¬ x > limit),
        not_lt.mp (by assumption : ¬ x < -limit)]

theorem clampSym_eq_limit (x limit : ℚ) (h : 0 ≤ limit) (hx : limit ≤ x) :
    clampSym x limit = limit := by
  unfold clampSym
  by_cases h1 : x > limit
  · rw [if_pos h1]
  · rw [if_neg h1, if_neg (by linarith)]
    linarith [not_lt.mp h1]

theorem clampSym_neg (x limit : ℚ) (h : 0 ≤ limit) :
    clampSym (-x) limit = -clampSym x limit := by
  unfold clampSym
  by_cases h1 : x > limit
  · have ha : ¬ (-x > limit) := by linarith
    have hb : -x < -limit := by linarith
    rw [if_pos h1, if_neg ha, if_pos hb]
  · by_cases h2 : x < -limit
    · have ha : -x > limit := by linarith
      rw [if_neg h1, if_pos h2, if_pos ha, neg_neg]
    · have ha : ¬ (-x > limit) := by linarith [not_lt.mp h2]
      have hb : ¬ (-x < -limit) := by linarith [not_lt.mp h1]
      rw [if_neg h1, if_neg h2, if_neg ha, if_neg hb]

theorem clampSym_iterate_sat (d limit : ℚ) (hlim : 0 ≤ limit) (hd : 0 < d) :
    ∀ (n : Nat) (I : ℚ), -limit ≤ I → I ≤ limit → limit ≤ I + n * d →
      (fun J => clampSym (J + d) limit)^[n] I = limit := by
  intro n
  induction n with
  | zero =>
    intro I _ h2 h3
    simp only [Function.iterate_zero, id]
    push_cast at h3
    linarith
  | succ m ih =>
    intro I h1 h2 h3
    rw [Function.iterate_succ_apply]
    show (fun J => clampSym (J + d) limit)^[m] (clampSym (I + d) limit) = limit
    by_cases hc : I + d > limit
    · have hstep : clampSym (I + d) limit = limit := clampSym_eq_limit _ _ hlim (le_of_lt hc)
      rw [hstep]
      have hmd : 0 ≤ (m : ℚ) * d := by positivity
      exact ih limit (by linarith) (le_refl _) (by linarith)
    · have hstep : clampSym (I + d) limit = I + d := by
        unfold clampSym
        rw [if_neg hc, if_neg (by linarith)]
      rw [hstep]
      refine ih (I + d) (by linarith) (by linarith [not_lt.mp hc]) ?_
      push_cast at h3 ⊢
      linarith

theorem yawIntegratorStep_abs_le (Ki limit I e : ℚ) (h : 0 ≤ limit) :
    |yawIntegratorStep Ki limit I e| ≤ limit := by
  rw [yawIntegratorStep_eq_clampSym Ki limit I e h]
  have hm := clampSym_mem (I + Ki * e) limit h
  exact abs_le.mpr ⟨hm.1, hm.2⟩

theorem yawIntegrator_foldl_abs_le (Ki limit : ℚ) (h : 0 ≤ limit) :
    ∀ (es : List ℚ) (I : ℚ), |I| ≤ limit →
      |es.foldl (fun J err => yawIntegratorStep Ki limit J err) I| ≤ limit := by
  intro es
  induction es with
  | nil => intro I hI; exact hI
  | cons e rest ih =>
    intro I _
    exact ih (yawIntegratorStep Ki limit I e) (yawIntegratorStep_abs_le Ki limit I e h)

theorem clampSym_iterate_neg (d limit : ℚ) (h : 0 ≤ limit) :
    ∀ (n : Nat) (I : ℚ),
      (fun J => clampSym (J + d) limit)^[n] I =
        -((fun J => clampSym (J + -d) limit)^[n] (-I)) := by
  intro n
  induction n with
  | zero => intro I; simp
  | succ m ih =>
    intro I
    rw [Function.iterate_succ_apply, Function.iterate_succ_apply]
    show (fun J => clampSym (J + d) limit)^[m] (clampSym (I + d) limit) =
      -((fun J => clampSym (J + -d) limit)^[m] (clampSym (-I + -d) limit))
    have harg : clampSym (-I + -d) limit = -(clampSym (I + d) limit) := by
      rw [show (-I + -d : ℚ) = -(I + d) by ring]
      exact clampSym_neg (I + d) limit h
    rw [harg, ih (clampSym (I + d) limit)]

theorem clampSym_saturates_pos (d limit I0 : ℚ) (h : 0 ≤ limit) (hd : 0 < d) :
    ∃ N, ∀ n, N ≤ n → (fun J => clampSym (J + d) limit)^[n] I0 = limit := by
  refine ⟨Nat.ceil (2 * limit / d) + 1, fun n hn => ?_⟩
  obtain ⟨m, rfl⟩ : ∃ m, n = m + 1 := ⟨n - 1, by omega⟩
  rw [Function.iterate_succ_apply]
  show (fun J => clampSym (J + d) limit)^[m] (clampSym (I0 + d) limit) = limit
  have hmem := clampSym_mem (I0 + d) limit h
  have hm : Nat.ceil (2 * limit / d) ≤ m := by omega
  have hq : (2 * limit / d : ℚ) ≤ (m : ℚ) :=
    le_trans (Nat.le_ceil _) (by exact_mod_cast hm)
  have hmd : 2 * limit ≤ (m : ℚ) * d := by
    rw [div_le_iff₀ hd] at hq
    linarith
  exact clampSym_iterate_sat d limit h hd m (clampSym (I0 + d) limit) hmem.1 hmem.2
    (by linarith)

theorem clampSym_saturates_neg (d limit I0 : ℚ) (h : 0 ≤ limit) (hd : d < 0) :
    ∃ N, ∀ n, N ≤ n → (fun J => clampSym (J + d) limit)^[n] I0 = -limit := by
  obtain ⟨N, hN⟩ := clampSym_saturates_pos (-d) limit (-I0) h (by linarith)
  refine ⟨N, fun n hn => ?_⟩
  rw [clampSym_iterate_neg d limit h n I0, hN n hn]

/-- C7: the yaw integrator of the Control Law (i) is exactly the
accumulate-then-clamp step on every `controlUpdate` (the update first adds
`Ki_yaw * e_yaw`, then clamps symmetrically to ±yaw_i_limit); (ii) its
magnitude is at most `yaw_i_limit` after any nonempty sequence of updates,
whatever the error inputs; and (iii) under a constant error of nonzero
effective increment `Ki_yaw * e` it saturates at exactly `+yaw_i_limit`
(positive increment) or `-yaw_i_limit` (negative increment) and stays
there.  Hypothesis: the configured limit is nonnegative. -/
theorem yaw_integrator_antiwindup (Ki limit e I0 : ℚ) (hlim : 0 ≤ limit) :
    (∀ inputs state P,
      ((controlUpdate inputs state P).1).yaw_integrator =
        yawIntegratorStep P.Ki_yaw P.yaw_i_limit P.yaw_integrator
          (inputs.yaw - state.yaw)) ∧
    (∀ I err, yawIntegratorStep Ki limit I err = clampSym (I + Ki * err) limit) ∧
    (∀ es : List ℚ, es ≠ [] →
      |es.foldl (fun J err => yawIntegratorStep Ki limit J err) I0| ≤ limit) ∧
    (0 < Ki * e →
      ∃ N, ∀ n, N ≤ n → (fun I => yawIntegratorStep Ki limit I e)^[n] I0 = limit) ∧
    (Ki * e < 0 →
      ∃ N, ∀ n, N ≤ n → (fun I => yawIntegratorStep Ki limit I e)^[n] I0 = -limit) := by
  have hfun : (fun I => yawIntegratorStep Ki limit I e) =
      (fun J => clampSym (J + Ki * e) limit) :=
    funext fun I => yawIntegratorStep_eq_clampSym Ki limit I e hlim
  refine ⟨fun inputs state P => rfl,
    fun I err => yawIntegratorStep_eq_clampSym Ki limit I err hlim,
    ?_, ?_, ?_⟩
  · rintro (_ | ⟨e1, rest⟩) hne
    · exact absurd rfl hne
    · show |rest.foldl (fun J err => yawIntegratorStep Ki limit J err)
        (yawIntegratorStep Ki limit I0 e1)| ≤ limit
      exact yawIntegrator_foldl_abs_le Ki limit hlim rest _
        (yawIntegratorStep_abs_le Ki limit I0 e1 hlim)
  · intro hpos
    rw [hfun]
    exact clampSym_saturates_pos (Ki * e) limit I0 hlim hpos
  · intro hneg
    rw [hfun]
    exact clampSym_saturates_neg (Ki * e) limit I0 hlim hneg

/-- Witness for `yaw_integrator_antiwindup` at Ki = 1, limit = 5, constant
error 1, initial integrator 0. -/
theorem yaw_integrator_antiwindup_witness :
    |([(1 : ℚ), 1, 1].foldl (fun J err => yawIntegratorStep 1 5 J err) 0)| ≤ 5 ∧
    (∃ N, ∀ n, N ≤ n → (fun I => yawIntegratorStep (1 : ℚ) 5 I 1)^[n] 0 = 5) :=
  ⟨(yaw_integrator_antiwindup 1 5 1 0 (by norm_num)).2.2.1 [1, 1, 1] (by simp),
   (yaw_integrator_antiwindup 1 5 1 0 (by norm_num)).2.2.2.1 (by norm_num)⟩

/-- C4: one Control Law update publishes exactly the quad-X combination
front-left = base + R + T − Y, front-right = base − R + T + Y,
rear-right = base − R − T − Y, rear-left = base + R − T + Y, with
base = thrust_min + base_thrust · (thrust_max − thrust_min), each value
clamped independently to [thrust_min, thrust_max] before being stored, so
every published thrust value lies within [thrust_min, thrust_max]
(whatever the attitude estimate, setpoint and gains are). -/
theorem control_output_range (inputs : ikarus_control_external_input_t)
    (state : ikarus_estimation_state_t) (P : ikarus_control_params_t)
    (h : P.thrust_min ≤ P.thrust_max) :
    ((controlUpdate inputs state P).2.thrust1 =
      floatToU16 (clip P.thrust_min P.thrust_max
        (controlBase P + controlDeltaR inputs state P + controlDeltaT inputs state P -
         controlDeltaY inputs state P)) ∧
     (controlUpdate inputs state P).2.thrust2 =
      floatToU16 (clip P.thrust_min P.thrust_max
        (controlBase P - controlDeltaR inputs state P + controlDeltaT inputs state P +
         controlDeltaY inputs state P)) ∧
     (controlUpdate inputs state P).2.thrust3 =
      floatToU16 (clip P.thrust_min P.thrust_max
        (controlBase P - controlDeltaR inputs state P - controlDeltaT inputs state P -
         controlDeltaY inputs state P)) ∧
     (controlUpdate inputs state P).2.thrust4 =
      floatToU16 (clip P.thrust_min P.thrust_max
        (controlBase P + controlDeltaR inputs state P - controlDeltaT inputs state P +
         controlDeltaY inputs state P))) ∧
    (P.thrust_min ≤ (controlUpdate inputs state P).2.thrust1 ∧
      (controlUpdate inputs state P).2.thrust1 ≤ P.thrust_max) ∧
    (P.thrust_min ≤ (controlUpdate inputs state P).2.thrust2 ∧
      (controlUpdate inputs state P).2.thrust2 ≤ P.thrust_max) ∧
    (P.thrust_min ≤ (controlUpdate inputs state P).2.thrust3 ∧
      (controlUpdate inputs state P).2.thrust3 ≤ P.thrust_max) ∧
    (P.thrust_min ≤ (controlUpdate inputs state P).2.thrust4 ∧
      (controlUpdate inputs state P).2.thrust4 ≤ P.thrust_max) := by
  refine ⟨⟨rfl, rfl, rfl, rfl⟩, ?_, ?_, ?_, ?_⟩ <;>
    exact floatToU16_bounds (clip_mem _ _ _ h).1 (clip_mem _ _ _ h).2

/-- Witness for `control_output_range` at the concrete inputs above. -/
theorem control_output_range_witness :
    (cexParams.thrust_min ≤ (controlUpdate cexInputs cexState cexParams).2.thrust1 ∧
      (controlUpdate cexInputs cexState cexParams).2.thrust1 ≤ cexParams.thrust_max) ∧
    (cexParams.thrust_min ≤ (controlUpdate cexInputs cexState cexParams).2.thrust2 ∧
      (controlUpdate cexInputs cexState cexParams).2.thrust2 ≤ cexParams.thrust_max) :=
  ⟨(control_output_range cexInputs cexState cexParams (by decide)).2.1,
   (control_output_range cexInputs cexState cexParams (by decide)).2.2.1⟩

/-- C9 (counterexample): a zero angle error on all three axes does not by
itself make the output equal the base thrust — with zero errors but a
roll rate of 1 (and Kd_roll = mix_roll = 1) the published front-left
thrust is 999 while the base thrust publishes as 1000. -/
theorem control_zero_error_cex :
    cexInputs.roll - cexState.roll = 0 ∧
    cexInputs.pitch - cexState.pitch = 0 ∧
    cexInputs.yaw - cexState.yaw = 0 ∧
    (controlUpdate cexInputs cexState cexParams).2.thrust1 = 999 ∧
    floatToU16 (controlBase cexParams) = 1000 ∧
    (999 : Nat) ≠ 1000 := by
  refine ⟨by norm_num [cexInputs, cexState], by norm_num [cexInputs, cexState],
    by norm_num [cexInputs, cexState], ?_, ?_, by decide⟩
  · norm_num [controlUpdate, controlBase, controlDeltaR, controlDeltaT,
      controlDeltaY, yawIntegratorStep, clip, floatToU16, cexInputs, cexState,
      cexParams]
    decide
  · norm_num [controlBase, floatToU16, cexParams]
    decide

theorem clip_eq_self {tmin tmax : Nat} {v : ℚ} (h1 : (tmin : ℚ) ≤ v)
    (h2 : v ≤ (tmax : ℚ)) : clip tmin tmax v = v := by
  unfold clip
  rw [if_neg (not_lt.mpr h1), if_neg (not_lt.mpr h2)]

theorem controlBase_mem (P : ikarus_control_params_t) (hb0 : 0 ≤ P.base_thrust)
    (hb1 : P.base_thrust ≤ 1) (hmm : P.thrust_min ≤ P.thrust_max) :
    (P.thrust_min : ℚ) ≤ controlBase P ∧ controlBase P ≤ (P.thrust_max : ℚ) := by
  have hle : (P.thrust_min : ℚ) ≤ (P.thrust_max : ℚ) := by exact_mod_cast hmm
  constructor
  · have h1 : 0 ≤ P.base_thrust * ((P.thrust_max : ℚ) - (P.thrust_min : ℚ)) :=
      mul_nonneg hb0 (by linarith)
    unfold controlBase
    linarith
  · have h2 : P.base_thrust * ((P.thrust_max : ℚ) - (P.thrust_min : ℚ)) ≤
        (P.thrust_max : ℚ) - (P.thrust_min : ℚ) :=
      mul_le_of_le_one_left (by linarith) hb1
    unfold controlBase
    linarith

/-- C9 (amended): when the angle error is zero on all three axes AND the
angular rates are zero AND the stored yaw integrator is zero (with a
nonnegative anti-windup limit, a base throttle fraction in [0,1] and
thrust_min ≤ thrust_max), one Control Law update publishes the base
thrust, truncated to an integer, on all four motors. -/
theorem control_zero_error_base (inputs : ikarus_control_external_input_t)
    (state : ikarus_estimation_state_t) (P : ikarus_control_params_t)
    (he1 : inputs.roll = state.roll) (he2 : inputs.pitch = state.pitch)
    (he3 : inputs.yaw = state.yaw)
    (hr1 : state.roll_dot = 0) (hr2 : state.pitch_dot = 0)
    (hr3 : state.yaw_dot = 0)
    (hI : P.yaw_integrator = 0) (hlim : 0 ≤ P.yaw_i_limit)
    (hb0 : 0 ≤ P.base_thrust) (hb1 : P.base_thrust ≤ 1)
    (hmm : P.thrust_min ≤ P.thrust_max) :
    (controlUpdate inputs state P).2.thrust1 = floatToU16 (controlBase P) ∧
    (controlUpdate inputs state P).2.thrust2 = floatToU16 (controlBase P) ∧
    (controlUpdate inputs state P).2.thrust3 = floatToU16 (controlBase P) ∧
    (controlUpdate inputs state P).2.thrust4 = floatToU16 (controlBase P) := by
  have hR : controlDeltaR inputs state P = 0 := by
    unfold controlDeltaR
    rw [he1, hr1]
    ring
  have hT : controlDeltaT inputs state P = 0 := by
    unfold controlDeltaT
    rw [he2, hr2]
    ring
  have hIstep : yawIntegratorStep P.Ki_yaw P.yaw_i_limit P.yaw_integrator
      (inputs.yaw - state.yaw) = 0 := by
    rw [yawIntegratorStep_eq_clampSym _ _ _ _ hlim, he3, sub_self, hI]
    show clampSym (0 + P.Ki_yaw * 0) P.yaw_i_limit = 0
    rw [mul_zero, add_zero]
    unfold clampSym
    rw [if_neg (by linarith), if_neg (by linarith)]
  have hY : controlDeltaY inputs state P = 0 := by
    unfold controlDeltaY
    rw [hIstep, he3, hr3]
    ring
  have hbase := controlBase_mem P hb0 hb1 hmm
  have hclip : clip P.thrust_min P.thrust_max (controlBase P) = controlBase P :=
    clip_eq_self hbase.1 hbase.2
  refine ⟨?_, ?_, ?_, ?_⟩ <;>
  · show floatToU16 (clip P.thrust_min P.thrust_max _) = _
    rw [hR, hT, hY]
    simp only [add_zero, sub_zero]
    rw [hclip]

/-- Witness for `control_zero_error_base`: the all-zero estimate and
setpoint with the concrete parameter set. -/
theorem control_zero_error_base_witness :
    (controlUpdate cexInputs ⟨0, 0, 0, 0, 0, 0⟩ cexParams).2.thrust1 =
      floatToU16 (controlBase cexParams) ∧
    (controlUpdate cexInputs ⟨0, 0, 0, 0, 0, 0⟩ cexParams).2.thrust2 =
      floatToU16 (controlBase cexParams) :=
  ⟨(control_zero_error_base cexInputs ⟨0, 0, 0, 0, 0, 0⟩ cexParams
      (by norm_num [cexInputs]) (by norm_num [cexInputs]) (by norm_num [cexInputs])
      rfl rfl rfl (by norm_num [cexParams]) (by norm_num [cexParams])
      (by norm_num [cexParams]) (by norm_num [cexParams]) (by decide)).1,
   (control_zero_error_base cexInputs ⟨0, 0, 0, 0, 0, 0⟩ cexParams
      (by norm_num [cexInputs]) (by norm_num [cexInputs]) (by norm_num [cexInputs])
      rfl rfl rfl (by norm_num [cexParams]) (by norm_num [cexParams])
      (by norm_num [cexParams]) (by norm_num [cexParams]) (by decide)).2.1⟩

theorem parserRun_acc (bytes : List Nat) (st : ReceiveParserState)
    (out0 : List (List Nat)) :
    bytes.foldl (fun acc b =>
      ((parserStep acc.1 b).1, acc.2 ++ ((parserStep acc.1 b).2).toList))
      (st, out0) =
    ((parserRun st bytes).1, out0 ++ (parserRun st bytes).2) := by
  induction bytes generalizing st out0 with
  | nil => simp [parserRun]
  | cons b rest ih =>
    show rest.foldl _ ((parserStep st b).1, out0 ++ ((parserStep st b).2).toList) = _
    rw [ih]
    have h2 : parserRun st (b :: rest) =
        ((parserRun (parserStep st b).1 rest).1,
         ((parserStep st b).2).toList ++ (parserRun (parserStep st b).1 rest).2) := by
      show rest.foldl _ ((parserStep st b).1, [] ++ ((parserStep st b).2).toList) = _
      rw [ih, List.nil_append]
    rw [h2]
    rw [List.append_assoc]

theorem parserRun_append (st : ReceiveParserState) (l1 l2 : List Nat) :
    parserRun st (l1 ++ l2) =
      ((parserRun (parserRun st l1).1 l2).1,
       (parserRun st l1).2 ++ (parserRun (parserRun st l1).1 l2).2) := by
  unfold parserRun
  rw [List.foldl_append]
  have h := parserRun_acc l2 (parserRun st l1).1 (parserRun st l1).2
  unfold parserRun at h
  rw [← h]

theorem parserRun_noise (noise : List Nat) (h : ∀ b ∈ noise, b ≠ 0xAA) :
    parserRun parserIdle noise = (parserIdle, []) := by
  induction noise with
  | nil => rfl
  | cons b rest ih =>
    have hb : b ≠ 0xAA := h b (by simp)
    have hstep : parserStep parserIdle b = (parserIdle, none) := by
      show parserStep ⟨false, [], 0⟩ b = (parserIdle, none)
      simp only [parserStep]
      rw [if_neg hb]
      rfl
    show rest.foldl _ ((parserStep parserIdle b).1, [] ++ ((parserStep parserIdle b).2).toList) = _
    rw [hstep]
    show rest.foldl _ (parserIdle, []) = _
    exact ih (fun x hx => h x (by simp [hx]))

theorem parserRun_cons (st : ReceiveParserState) (b : Nat) (bs : List Nat) :
    parserRun st (b :: bs) =
      ((parserRun (parserStep st b).1 bs).1,
       ((parserStep st b).2).toList ++ (parserRun (parserStep st b).1 bs).2) := by
  show bs.foldl _ ((parserStep st b).1, [] ++ ((parserStep st b).2).toList) = _
  rw [parserRun_acc, List.nil_append]

theorem parserRun_fill : ∀ (bs buf : List Nat), 3 ≤ buf.length →
    buf.length + bs.length = 104 → bs ≠ [] →
    parserRun ⟨true, buf, 104⟩ bs = (parserIdle, [buf ++ bs]) := by
  intro bs
  induction bs with
  | nil =>
    intro buf _ _ hne
    exact absurd rfl hne
  | cons b rest ih =>
    intro buf h3 hlen _
    have hlb : (buf ++ [b]).length = buf.length + 1 := by simp
    have hne3 : ¬ (buf ++ [b]).length = 3 := by
      intro hc
      rw [hlb] at hc
      omega
    have hconj : ¬ ((buf ++ [b]).length = 3 ∧ (buf ++ [b]).getD 2 0 > 100) :=
      fun hc => hne3 hc.1
    cases rest with
    | nil =>
      have hbl : buf.length = 103 := by
        simp at hlen
        omega
      have htake : (buf ++ [b]).take 104 = buf ++ [b] :=
        List.take_of_length_le (by rw [hlb]; omega)
      have hstep : parserStep ⟨true, buf, 104⟩ b =
          (parserIdle, some ((buf ++ [b]).take 104)) := by
        simp only [parserStep]
        rw [if_neg hconj, if_neg hne3,
          if_pos ⟨by norm_num, by rw [hlb]; omega⟩]
      rw [parserRun_cons, hstep]
      rw [htake]
      rfl
    | cons b2 rest2 =>
      have hlt : (buf ++ [b]).length < 104 := by
        simp at hlen ⊢
        omega
      have hstep : parserStep ⟨true, buf, 104⟩ b =
          (⟨true, buf ++ [b], 104⟩, none) := by
        simp only [parserStep]
        rw [if_neg hconj, if_neg hne3,
          if_neg (fun hc => by omega : ¬ (0 < 104 ∧ 104 ≤ (buf ++ [b]).length)),
          if_neg (by omega : ¬ 104 ≤ (buf ++ [b]).length)]
      rw [parserRun_cons, hstep]
      have ihr := ih (buf ++ [b]) (by rw [hlb]; omega)
        (by rw [hlb]; simp at hlen ⊢; omega) (by simp)
      show ((parserRun ⟨true, buf ++ [b], 104⟩ (b2 :: rest2)).1,
        [] ++ (parserRun ⟨true, buf ++ [b], 104⟩ (b2 :: rest2)).2) = _
      rw [ihr, List.nil_append, List.append_assoc]
      rfl

/-- C6 (amended): for every byte stream of garbage that contains no start
marker byte 0xAA, followed by exactly one well-formed frame (104 bytes,
start 0xAA, declared payload length at most 100), the Link Receiver hands
exactly that frame to the dispatcher and returns to Idle. -/
theorem link_receiver_resync (noise frame : List Nat)
    (hn : ∀ b ∈ noise, b ≠ 0xAA)
    (hlen : frame.length = 104)
    (h0 : frame.getD 0 0 = 0xAA)
    (hpl : frame.getD 2 0 ≤ 100) :
    parserRun parserIdle (noise ++ frame) = (parserIdle, [frame]) := by
  rw [parserRun_append, parserRun_noise noise hn]
  show parserRun parserIdle frame = (parserIdle, [frame])
  obtain ⟨t, l, rest, rfl⟩ : ∃ t l rest, frame = 0xAA :: t :: l :: rest := by
    cases frame with
    | nil => simp at hlen
    | cons a f1 =>
      cases f1 with
      | nil => simp at hlen
      | cons t f2 =>
        cases f2 with
        | nil => simp at hlen
        | cons l rest =>
          have ha : a = 0xAA := by simpa using h0
          exact ⟨t, l, rest, by rw [ha]⟩
  have hrest : rest.length = 101 := by
    simp at hlen
    omega
  have hl100 : l ≤ 100 := by simpa using hpl
  have hnl : ¬ l > 100 := not_lt.mpr hl100
  have hs1 : parserStep parserIdle 0xAA = (⟨true, [0xAA], 0⟩, none) := by
    show parserStep ⟨false, [], 0⟩ 0xAA = _
    simp only [parserStep]
    rw [if_pos trivial]
  have hs2 : parserStep ⟨true, [0xAA], 0⟩ t = (⟨true, [0xAA, t], 0⟩, none) := by
    simp [parserStep]
  have hs3 : parserStep ⟨true, [0xAA, t], 0⟩ l = (⟨true, [0xAA, t, l], 104⟩, none) := by
    simp [parserStep, hnl]
  have hrun3 : parserRun ⟨true, [0xAA, t, l], 104⟩ rest =
      (parserIdle, [[0xAA, t, l] ++ rest]) :=
    parserRun_fill rest [0xAA, t, l] (by simp) (by simp [hrest])
      (by intro hc; rw [hc] at hrest; simp at hrest)
  have hrun2 : parserRun ⟨true, [0xAA, t], 0⟩ (l :: rest) =
      (parserIdle, [[0xAA, t, l] ++ rest]) := by
    rw [parserRun_cons, hs3]
    show ((parserRun ⟨true, [0xAA, t, l], 104⟩ rest).1,
      [] ++ (parserRun ⟨true, [0xAA, t, l], 104⟩ rest).2) = _
    rw [hrun3]
    rfl
  have hrun1 : parserRun ⟨true, [0xAA], 0⟩ (t :: l :: rest) =
      (parserIdle, [[0xAA, t, l] ++ rest]) := by
    rw [parserRun_cons, hs2]
    show ((parserRun ⟨true, [0xAA, t], 0⟩ (l :: rest)).1,
      [] ++ (parserRun ⟨true, [0xAA, t], 0⟩ (l :: rest)).2) = _
    rw [hrun2]
    rfl
  rw [parserRun_cons, hs1]
  show ((parserRun ⟨true, [0xAA], 0⟩ (t :: l :: rest)).1,
    [] ++ (parserRun ⟨true, [0xAA], 0⟩ (t :: l :: rest)).2) = _
  rw [hrun1]
  rfl

/-- Witness for `link_receiver_resync`: noise [5, 0, 99] followed by the
concrete well-formed frame. -/
theorem link_receiver_resync_witness :
    parserRun parserIdle ([5, 0, 99] ++ goodFrame) = (parserIdle, [goodFrame]) :=
  link_receiver_resync [5, 0, 99] goodFrame (by decide) (by decide) (by decide)
    (by decide)

/-- C6 (counterexample): if the garbage before the well-formed frame
contains a premature/false start byte 0xAA, the receiver does NOT extract
the frame: the false start opens a bogus 104-byte accumulation that
swallows the first 103 bytes of the real frame, the dispatched block is
`0xAA :: goodFrame.take 103` rather than the frame, and the frame itself
is never handed over. -/
theorem link_receiver_false_start_cex :
    goodFrame.length = 104 ∧
    goodFrame.getD 0 0 = 0xAA ∧
    goodFrame.getD 2 0 ≤ 100 ∧
    ikarus_calc_crc goodFrame (3 + goodFrame.getD 2 0) = goodFrame.getD 103 0 ∧
    (parserRun parserIdle ([0xAA] ++ goodFrame)).2 = [0xAA :: goodFrame.take 103] ∧
    (parserRun parserIdle ([0xAA] ++ goodFrame)).2 ≠ [goodFrame] := by
  decide

/-- C3: a frame block whose start byte differs from 0xAA, or whose
declared payload length exceeds MAX_PAYLOAD = 100, or whose computed
checksum (low 8 bits of the sum of start, type, length and payload bytes)
differs from the trailing checksum byte, is answered with a textual error
and mutates no shared state — it is never dispatched to any message
handler (the result is exactly the unchanged state plus one of the three
error strings, produced before the dispatch switch is reached). -/
theorem binary_decoder_rejects (decodeF : List Nat → ℚ)
    (magCalType specialType : Nat) (data : List Nat) (st : FirmwareSharedState)
    (hlen : data.length = 104)
    (hbad : data.getD 0 0 ≠ 0xAA ∨ data.getD 2 0 > 100 ∨
      ikarus_calc_crc data (3 + data.getD 2 0) ≠ data.getD 103 0) :
    (processBinaryMessage decodeF magCalType specialType data st).1 = st ∧
    ((processBinaryMessage decodeF magCalType specialType data st).2 =
        some "ERR: invalid start\n" ∨
     (processBinaryMessage decodeF magCalType specialType data st).2 =
        some "ERR: invalid length\n" ∨
     (processBinaryMessage decodeF magCalType specialType data st).2 =
        some "ERR: CRC mismatch\n") := by
  unfold processBinaryMessage
  rw [if_neg (by omega : ¬ data.length < 104)]
  by_cases h1 : data.getD 0 0 ≠ 0xAA
  · rw [if_pos h1]
    exact ⟨rfl, Or.inl rfl⟩
  · rw [if_neg h1]
    by_cases h2 : data.getD 2 0 > 100
    · rw [if_pos h2]
      exact ⟨rfl, Or.inr (Or.inl rfl)⟩
    · rw [if_neg h2]
      have h3 : ikarus_calc_crc data (3 + data.getD 2 0) ≠ data.getD 103 0 := by
        rcases hbad with hb | hb | hb
        · exact absurd hb h1
        · exact absurd hb h2
        · exact hb
      rw [if_pos h3]
      exact ⟨rfl, Or.inr (Or.inr rfl)⟩

/-- Witness for `binary_decoder_rejects` at the concrete corrupted
frame. -/
theorem binary_decoder_rejects_witness :
    (processBinaryMessage (fun _ => 0) 20 21 badFrame st0).1 = st0 ∧
    ((processBinaryMessage (fun _ => 0) 20 21 badFrame st0).2 =
        some "ERR: invalid start\n" ∨
     (processBinaryMessage (fun _ => 0) 20 21 badFrame st0).2 =
        some "ERR: invalid length\n" ∨
     (processBinaryMessage (fun _ => 0) 20 21 badFrame st0).2 =
        some "ERR: CRC mismatch\n") :=
  binary_decoder_rejects (fun _ => 0) 20 21 badFrame st0 (by decide)
    (by right; right; decide)
